import Mathlib

/-!
Shallow embedding of the newton-fractal-interactive repository.

Numbers are modelled as exact rationals. The sources embedded here are
src/utils.ts (complex arithmetic, palette generation, coordinate
transforms), src/fargment.wgsl (the Newton classifier shader),
src/RootManager.ts (root state and drag protocol) and the unnamed
flat-coloring shader (root_color). Square roots are avoided by comparing
squared magnitudes with squared thresholds, which is equivalent because
sqrt is strictly monotone on nonnegative reals and every threshold in the
code is positive; fields that store a magnitude store its square instead,
with a _sq suffix.
-/

/-- A point or complex value held as a pair of rationals, standing for the
WGSL vec2 of f32. -/
abbrev Vec2 : Type := ℚ × ℚ

/-- RGB color record from src/utils.ts. -/
@[ext]
structure RGB where
  r : ℚ
  g : ℚ
  b : ℚ
deriving DecidableEq, Repr

/-- OKHSL color record from src/utils.ts. -/
structure OKHSL where
  h : ℚ
  s : ℚ
  l : ℚ
deriving DecidableEq, Repr

/-- Complex number class from src/utils.ts, real and imag components. -/
@[ext]
structure ComplexNumber where
  real : ℚ
  imag : ℚ
deriving DecidableEq, Repr

/-- add from src/utils.ts lines 24-26. -/
def ComplexNumber.add (a b : ComplexNumber) : ComplexNumber :=
  ⟨a.real + b.real, a.imag + b.imag⟩

/-- subtract from src/utils.ts lines 28-30. -/
def ComplexNumber.subtract (a b : ComplexNumber) : ComplexNumber :=
  ⟨a.real - b.real, a.imag - b.imag⟩

/-- multiply from src/utils.ts lines 32-37. -/
def ComplexNumber.multiply (a b : ComplexNumber) : ComplexNumber :=
  ⟨a.real * b.real - a.imag * b.imag, a.real * b.imag + a.imag * b.real⟩

/-- divide from src/utils.ts lines 39-45: computes a times conj b over the
squared magnitude of b, dividing unconditionally with no epsilon guard
(rational division by a zero denominator yields zero in this model, where
JavaScript would produce NaN or Infinity; all claims about divide are
stated away from a zero denominator). -/
def ComplexNumber.divide (a b : ComplexNumber) : ComplexNumber :=
  let denominator := b.real * b.real + b.imag * b.imag
  ⟨(a.real * b.real + a.imag * b.imag) / denominator,
   (a.imag * b.real - a.real * b.imag) / denominator⟩

/-- Squared magnitude of a ComplexNumber; the source magnitude() is its
square root. -/
def ComplexNumber.magnitude_sq (a : ComplexNumber) : ℚ :=
  a.real * a.real + a.imag * a.imag

/-- JavaScript (and WGSL f32) remainder: truncated modulo,
a - b * trunc(a / b). Both uses in this code have nonnegative a and
positive b, where this agrees with the floor version. -/
def jsMod (a b : ℚ) : ℚ :=
  a - b * ((if 0 ≤ a / b then ⌊a / b⌋ else ⌈a / b⌉ : ℤ) : ℚ)

/-- okhslToRgb from src/utils.ts lines 80-113: the simplified hue-chroma
conversion, with each channel clamped to the unit interval. -/
def okhslToRgb (okhsl : OKHSL) : RGB :=
  let hNorm := jsMod okhsl.h 360 / 360
  let c := (1 - |2 * okhsl.l - 1|) * okhsl.s
  let x := c * (1 - |jsMod (hNorm * 6) 2 - 1|)
  let m := okhsl.l - c / 2
  let rgb : ℚ × ℚ × ℚ :=
    if hNorm < 1/6 then (c, x, 0)
    else if hNorm < 2/6 then (x, c, 0)
    else if hNorm < 3/6 then (0, c, x)
    else if hNorm < 4/6 then (0, x, c)
    else if hNorm < 5/6 then (x, 0, c)
    else (c, 0, x)
  ⟨max 0 (min 1 (rgb.1 + m)),
   max 0 (min 1 (rgb.2.1 + m)),
   max 0 (min 1 (rgb.2.2 + m))⟩

/-- generateRootColors from src/utils.ts lines 116-128: for each index i
below numRoots, the color okhslToRgb of hue i*360/numRoots with
saturation 0.8 and lightness 0.6. -/
def generateRootColors (numRoots : ℕ) : List RGB :=
  (List.range numRoots).map (fun (i : ℕ) =>
    okhslToRgb ⟨(i : ℚ) * 360 / (numRoots : ℚ), 8/10, 6/10⟩)

/-- ViewportConfig from src/utils.ts lines 132-136. -/
structure ViewportConfig where
  zoom : ℚ
  center : ComplexNumber
  aspectRatio : ℚ
deriving DecidableEq, Repr

/-- screenToComplex from src/utils.ts lines 138-164: normalizes the screen
point to the unit square, maps both axes onto the span -2..2 (the source
comment says aspect ratio is ignored for debugging), then applies
(coord - center)/zoom + center. -/
def screenToComplex (screenX screenY canvasWidth canvasHeight : ℚ)
    (viewport : ViewportConfig) : ComplexNumber :=
  let uvx := screenX / canvasWidth
  let uvy := screenY / canvasHeight
  let coordReal := -2 + uvx * 4
  let coordImag := -2 + uvy * 4
  ⟨(coordReal - viewport.center.real) / viewport.zoom + viewport.center.real,
   (coordImag - viewport.center.imag) / viewport.zoom + viewport.center.imag⟩

/-- complexToScreen from src/utils.ts lines 166-189: applies
(coord - center)*zoom + center, maps the span -2..2 back to the unit
square on both axes (aspect ratio again ignored), then scales by the
canvas size. -/
def complexToScreen (complex : ComplexNumber) (canvasWidth canvasHeight : ℚ)
    (viewport : ViewportConfig) : ℚ × ℚ :=
  let coordReal := (complex.real - viewport.center.real) * viewport.zoom +
    viewport.center.real
  let coordImag := (complex.imag - viewport.center.imag) * viewport.zoom +
    viewport.center.imag
  let uvx := (coordReal + 2) / 4
  let uvy := (coordImag + 2) / 4
  (uvx * canvasWidth, uvy * canvasHeight)

/-- WGSL mix(a, b, t) = a + (b - a) * t, used by the spec-side mapping
model below. -/
def wgslMix (a b t : ℚ) : ℚ := a + (b - a) * t

/-- Spec-side model of screenToComplex, written from the words of the spec
(section 4.2) and matching the aspect-ratio handling that the shader main
in src/fargment.wgsl lines 191-212 performs: the base span is -2..2 on the
shorter axis and is scaled by aspectRatio on the longer axis, then
(coord - center)/zoom + center is applied. It exists only to be compared
with screenToComplex above. -/
def screenToComplex_specModel (screenX screenY canvasWidth canvasHeight : ℚ)
    (viewport : ViewportConfig) : ComplexNumber :=
  let uvx := screenX / canvasWidth
  let uvy := screenY / canvasHeight
  let a := viewport.aspectRatio
  let coord : Vec2 :=
    if 1 < a then
      (wgslMix (-2 * a) (2 * a) uvx, wgslMix (-2) 2 uvy)
    else
      (wgslMix (-2) 2 uvx, wgslMix (-2 / a) (2 / a) uvy)
  ⟨(coord.1 - viewport.center.real) / viewport.zoom + viewport.center.real,
   (coord.2 - viewport.center.imag) / viewport.zoom + viewport.center.imag⟩

/-- c_add from src/fargment.wgsl. -/
def c_add (a b : Vec2) : Vec2 := (a.1 + b.1, a.2 + b.2)

/-- c_sub from src/fargment.wgsl. -/
def c_sub (a b : Vec2) : Vec2 := (a.1 - b.1, a.2 - b.2)

/-- c_mul from src/fargment.wgsl. -/
def c_mul (a b : Vec2) : Vec2 :=
  (a.1 * b.1 - a.2 * b.2, a.1 * b.2 + a.2 * b.1)

/-- Squared magnitude; the shader c_abs is its square root, and every
comparison c_abs a < t in the shader is embedded as c_abs_sq a < t^2. -/
def c_abs_sq (a : Vec2) : ℚ := a.1 * a.1 + a.2 * a.2

/-- c_div from src/fargment.wgsl: a times conj b over the squared
magnitude of b, no guard. -/
def c_div (a b : Vec2) : Vec2 :=
  let denom := b.1 * b.1 + b.2 * b.2
  ((a.1 * b.1 + a.2 * b.2) / denom, (a.2 * b.1 - a.1 * b.2) / denom)

/-- NewtonResult from src/fargment.wgsl lines 16-21. The shader field
final_distance stores a magnitude; here final_distance_sq stores its
square. -/
structure NewtonResult where
  root_index : ℤ
  root_value : Vec2
  iterations : ℤ
  final_distance_sq : ℚ
deriving DecidableEq, Repr

/-- max_iter constant of newton_root in src/fargment.wgsl. -/
def max_iter : ℕ := 30

/-- Square of the convergence epsilon 1e-4 of newton_root. -/
def eps_sq : ℚ := 1 / 10 ^ 8

/-- Square of the derivative floor 1e-10 of newton_root. -/
def deriv_floor_sq : ℚ := 1 / 10 ^ 20

/-- evaluate_polynomial from src/fargment.wgsl lines 46-53: the product of
z minus each root, starting from one. -/
def evaluate_polynomial (roots : List Vec2) (z : Vec2) : Vec2 :=
  roots.foldl (fun result r => c_mul result (c_sub z r)) (1, 0)

/-- evaluate_derivative from src/fargment.wgsl lines 55-68: the sum over i
of the product over j different from i of z minus root j. -/
def evaluate_derivative (roots : List Vec2) (z : Vec2) : Vec2 :=
  (List.range roots.length).foldl (fun result i =>
    c_add result
      ((List.range roots.length).foldl (fun term j =>
        if i ≠ j then c_mul term (c_sub z (roots.getD j (0, 0))) else term)
        (1, 0)))
    (0, 0)

/-- The root scan inside the loop of newton_root, src/fargment.wgsl lines
89-94: walk the roots in ascending index order and return the first whose
squared distance to z is below eps_sq, together with that root value and
the squared distance. -/
def scan_roots : List Vec2 → Vec2 → Option (ℕ × Vec2 × ℚ)
  | [], _ => none
  | r :: rs, z =>
    let d2 := c_abs_sq (c_sub z r)
    if d2 < eps_sq then some (0, r, d2)
    else (scan_roots rs z).map (fun p => (p.1 + 1, p.2))

/-- The loop of newton_root from src/fargment.wgsl lines 70-98, with the
remaining iteration count as fuel and i the current iteration number.
When fuel runs out, or when the squared derivative magnitude falls below
deriv_floor_sq (the break in the source falls through to the same return),
the result is root index -1 with iterations = max_iter. -/
def newton_go (roots : List Vec2) : ℕ → ℕ → Vec2 → NewtonResult
  | 0, _, _ => ⟨-1, (0, 0), (max_iter : ℤ), 0⟩
  | fuel + 1, i, z =>
    let fz := evaluate_polynomial roots z
    let fprime := evaluate_derivative roots z
    if c_abs_sq fprime < deriv_floor_sq then ⟨-1, (0, 0), (max_iter : ℤ), 0⟩
    else
      let step := c_div fz fprime
      let z2 := c_sub z step
      match scan_roots roots z2 with
      | some (idx, rv, d2) => ⟨(idx : ℤ), rv, (i : ℤ), d2⟩
      | none => newton_go roots fuel (i + 1) z2

/-- newton_root from src/fargment.wgsl lines 70-98. -/
def newton_root (roots : List Vec2) (z0 : Vec2) : NewtonResult :=
  newton_go roots max_iter 0 z0

/-- rgb_to_hsv from src/fargment.wgsl lines 129-153, over a rational
triple (r, g, b), returning (h, s, v). -/
def rgb_to_hsv (rgb : ℚ × ℚ × ℚ) : ℚ × ℚ × ℚ :=
  let max_val := max (max rgb.1 rgb.2.1) rgb.2.2
  let min_val := min (min rgb.1 rgb.2.1) rgb.2.2
  let delta := max_val - min_val
  let s := if 0 < max_val then delta / max_val else 0
  let v := max_val
  let h :=
    if 0 < delta then
      let h0 :=
        if max_val = rgb.1 then ((rgb.2.1 - rgb.2.2) / delta) / 6
        else if max_val = rgb.2.1 then (2 + (rgb.2.2 - rgb.1) / delta) / 6
        else (4 + (rgb.1 - rgb.2.1) / delta) / 6
      if h0 < 0 then h0 + 1 else h0
    else 0
  (h, s, v)

/-- hsv_to_rgb from src/fargment.wgsl lines 101-127. -/
def hsv_to_rgb (hsv : ℚ × ℚ × ℚ) : ℚ × ℚ × ℚ :=
  let h := hsv.1
  let s := hsv.2.1
  let v := hsv.2.2
  let c := v * s
  let x := c * (1 - |jsMod (h * 6) 2 - 1|)
  let m := v - c
  let rgb : ℚ × ℚ × ℚ :=
    if h < 1/6 then (c, x, 0)
    else if h < 2/6 then (x, c, 0)
    else if h < 3/6 then (0, c, x)
    else if h < 4/6 then (0, x, c)
    else if h < 5/6 then (x, 0, c)
    else (c, 0, x)
  (rgb.1 + m, rgb.2.1 + m, rgb.2.2 + m)

/-- The guard of smooth_root_color, src/fargment.wgsl line 161: the
palette index used for the lookup, or none when the branch returning
white is taken (root_index negative or at least num_roots). -/
def smooth_palette_index (num_roots : ℕ) (root_index : ℤ) : Option ℕ :=
  if root_index < 0 ∨ (num_roots : ℤ) ≤ root_index then none
  else some root_index.toNat

/-- smooth_root_color from src/fargment.wgsl lines 160-187. The two
transcendental subterms, pow(32, -final_distance/eps) and
noise(fragCoord), are passed in abstractly as smooth_offset and noise_val
since they do not affect which color path is taken; everything else
follows the source. Colors is the palette array of the uniform buffer. -/
def smooth_root_color (num_roots : ℕ) (colors : List (ℚ × ℚ × ℚ))
    (result : NewtonResult) (smooth_offset noise_val : ℚ) : ℚ × ℚ × ℚ :=
  match smooth_palette_index num_roots result.root_index with
  | none => (1, 1, 1)
  | some idx =>
    let base_color := colors.getD idx (0, 0, 0)
    let hsv := rgb_to_hsv base_color
    let smooth_iter := (result.iterations : ℚ) - smooth_offset - noise_val
    let iter_normalized := 1/2 + 1/2 * smooth_iter / 32
    let v1 := hsv.2.2 * iter_normalized
    let v2 := max v1 (1/5)
    let s2 := max hsv.2.1 (3/10)
    hsv_to_rgb (hsv.1, s2, v2)

/-- root_color from the unnamed flat-coloring shader (src/unnamed/part_000
lines 61-77): index 0 is red, 1 green, 2 blue, and every other index,
including -1, is black. -/
def root_color (idx : ℤ) : ℚ × ℚ × ℚ :=
  if idx = 0 then (1, 0, 0)
  else if idx = 1 then (0, 1, 0)
  else if idx = 2 then (0, 0, 1)
  else (0, 0, 0)

/-- RootElement from src/utils.ts lines 193-199, without the DOM handle:
id (modelled as a natural number; the source id string is opaque and only
compared for equality), complex position, color, and the isDragging flag.
-/
@[ext]
structure Root where
  id : ℕ
  complex : ComplexNumber
  color : RGB
  isDragging : Bool
deriving DecidableEq, Repr

/-- The dragState record of RootManager, src/RootManager.ts lines 21-31.
-/
structure DragState where
  isDragging : Bool
  rootId : Option ℕ
  startPos : ℚ × ℚ
  offset : ℚ × ℚ
deriving DecidableEq, Repr

/-- The environment of a RootManager: the minRoots/maxRoots policy from
RootManagerConfig, the canvas size in CSS pixels (the source divides
canvas.width by window.devicePixelRatio to obtain it), and the position of
the canvas client rect, read by the drag handlers to turn client
coordinates into canvas coordinates. -/
structure RMConfig where
  minRoots : ℕ
  maxRoots : ℕ
  canvasW : ℚ
  canvasH : ℚ
  canvasLeft : ℚ
  canvasTop : ℚ
deriving DecidableEq, Repr

/-- The mutable state of a RootManager: the root list, a counter standing
for the fresh-id generator of addRootElement, the viewport, and the drag
state. -/
structure RMState where
  roots : List Root
  nextId : ℕ
  viewport : ViewportConfig
  dragState : DragState
deriving DecidableEq, Repr

/-- In-place update of the first list element satisfying the predicate,
matching the source pattern of find followed by mutation of the found
object: later elements with the same id are untouched. -/
def updateFirst (p : Root → Bool) (f : Root → Root) : List Root → List Root
  | [] => []
  | r :: rs => if p r then f r :: rs else r :: updateFirst p f rs

/-- startDrag from src/RootManager.ts lines 178-198: a no-op when no root
has the given id; otherwise records the drag state and sets the isDragging
flag of the found root. The offset is the vector from the pointer to the
marker center; the marker center on screen is where updateRootPosition
last placed it, namely complexToScreen of the root position shifted by the
canvas origin. Position, id and color of every root are untouched. -/
def startDrag (cfg : RMConfig) (s : RMState) (rootId : ℕ)
    (clientX clientY : ℚ) : RMState :=
  match s.roots.find? (fun r => r.id == rootId) with
  | none => s
  | some root =>
    let center := complexToScreen root.complex cfg.canvasW cfg.canvasH
      s.viewport
    { s with
      dragState :=
        { isDragging := true
          rootId := some rootId
          startPos := (clientX, clientY)
          offset := (cfg.canvasLeft + center.1 - clientX,
                     cfg.canvasTop + center.2 - clientY) }
      roots := updateFirst (fun r => r.id == rootId)
        (fun r => { r with isDragging := true }) s.roots }

/-- handleDrag from src/RootManager.ts lines 200-229: a no-op unless a
drag is active and the dragged root still exists; otherwise converts the
client coordinates to canvas coordinates, maps them through screenToComplex
with the current viewport, and overwrites the position of the dragged root
only. -/
def handleDrag (cfg : RMConfig) (s : RMState) (clientX clientY : ℚ) :
    RMState :=
  if !s.dragState.isDragging then s
  else
    match s.dragState.rootId with
    | none => s
    | some rid =>
      match s.roots.find? (fun r => r.id == rid) with
      | none => s
      | some _ =>
        let canvasX := clientX - cfg.canvasLeft
        let canvasY := clientY - cfg.canvasTop
        let newComplex := screenToComplex canvasX canvasY cfg.canvasW
          cfg.canvasH s.viewport
        { s with
          roots := updateFirst (fun r => r.id == rid)
            (fun r => { r with complex := newComplex }) s.roots }

/-- addRootAtPosition from src/RootManager.ts lines 252-275: a no-op when
the root list is already at maxRoots; otherwise maps the screen point to a
complex position, regenerates the palette for the new count, recolors the
existing roots, and appends a new root with a fresh id and the last new
color (the append is the addRootElement push). -/
def addRootAtPosition (cfg : RMConfig) (s : RMState) (x y : ℚ) : RMState :=
  if cfg.maxRoots ≤ s.roots.length then s
  else
    let complex := screenToComplex x y cfg.canvasW cfg.canvasH s.viewport
    let colors := generateRootColors (s.roots.length + 1)
    let recolored := s.roots.enum.map (fun p =>
      { p.2 with color := colors.getD p.1 ⟨0, 0, 0⟩ })
    { s with
      roots := recolored ++
        [⟨s.nextId, complex, colors.getD s.roots.length ⟨0, 0, 0⟩, false⟩]
      nextId := s.nextId + 1 }

/-- removeRoot from src/RootManager.ts lines 277-297: a no-op when the
root list is already at minRoots or the id is absent; otherwise removes
the root at the found index and regenerates the palette for the remaining
roots. -/
def removeRoot (cfg : RMConfig) (s : RMState) (rootId : ℕ) : RMState :=
  if s.roots.length ≤ cfg.minRoots then s
  else
    match s.roots.findIdx? (fun r => r.id == rootId) with
    | none => s
    | some i =>
      let remaining := s.roots.eraseIdx i
      let colors := generateRootColors remaining.length
      { s with
        roots := remaining.enum.map (fun p =>
          { p.2 with color := colors.getD p.1 ⟨0, 0, 0⟩ }) }

/-- C1: composing screenToComplex then complexToScreen with the same
viewport returns the original screen point exactly, for any point inside a
positive-size canvas and any viewport with positive zoom. -/
theorem roundtrip_screen_complex_screen
    (x y W H : ℚ) (vp : ViewportConfig)
    (hW : 0 < W) (hH : 0 < H) (hz : 0 < vp.zoom)
    (hx0 : 0 ≤ x) (hxW : x ≤ W) (hy0 : 0 ≤ y) (hyH : y ≤ H) :
    complexToScreen (screenToComplex x y W H vp) W H vp = (x, y) := by
  have hW0 : W ≠ 0 := ne_of_gt hW
  have hH0 : H ≠ 0 := ne_of_gt hH
  have hz0 : vp.zoom ≠ 0 := ne_of_gt hz
  simp only [screenToComplex, complexToScreen]
  refine Prod.ext ?_ ?_ <;> field_simp <;> ring

/-- Witness for C1 at a concrete point and viewport. -/
theorem roundtrip_screen_complex_screen_witness :
    complexToScreen
      (screenToComplex 10 20 100 50 ⟨2, ⟨1/2, -1/3⟩, 2⟩) 100 50
      ⟨2, ⟨1/2, -1/3⟩, 2⟩ = (10, 20) :=
  roundtrip_screen_complex_screen 10 20 100 50 ⟨2, ⟨1/2, -1/3⟩, 2⟩
    (by norm_num) (by norm_num) (by norm_num)
    (by norm_num) (by norm_num) (by norm_num) (by norm_num)

/-- C8: for every positive root count n, palette generation assigns to
root i the color of hue i*360/n with saturation 0.8 and lightness 0.6,
and generateRootColors is a pure function of n, so two calls with the
same n yield identical lists (in this pure model the determinism conjunct
is definitional). -/
theorem generateRootColors_hue_assignment (n i : ℕ) (hn : 1 ≤ n)
    (hi : i < n) :
    (generateRootColors n).length = n ∧
    (generateRootColors n)[i]? =
      some (okhslToRgb ⟨(i : ℚ) * 360 / (n : ℚ), 8/10, 6/10⟩) ∧
    generateRootColors n = generateRootColors n := by
  refine ⟨?_, ?_, rfl⟩
  · rw [generateRootColors, List.length_map, List.length_range]
  · rw [generateRootColors, List.getElem?_map, List.getElem?_range hi,
      Option.map_some']

/-- Witness for C8 at n = 3, i = 1. -/
theorem generateRootColors_hue_assignment_witness :
    (generateRootColors 3).length = 3 ∧
    (generateRootColors 3)[1]? =
      some (okhslToRgb ⟨((1 : ℕ) : ℚ) * 360 / ((3 : ℕ) : ℚ), 8/10, 6/10⟩) ∧
    generateRootColors 3 = generateRootColors 3 :=
  generateRootColors_hue_assignment 3 1 (by norm_num) (by norm_num)

/-- C9: the flat color mapper sends a non-convergent classification,
root index -1, to black. -/
theorem flat_color_nonconvergent_is_black : root_color (-1) = (0, 0, 0) :=
  rfl

/-- Counterexample for C4: divide has no epsilon guard. At b with squared
magnitude 1e-16, far below both numeric thresholds appearing anywhere in
the code (1e-4 and 1e-10), divide returns the value obtained by dividing
by that near-zero denominator instead of failing or flagging an error. -/
theorem divide_near_zero_returns_value :
    ComplexNumber.divide ⟨1, 0⟩ ⟨1/100000000, 0⟩ = ⟨100000000, 0⟩ ∧
    ComplexNumber.magnitude_sq ⟨1/100000000, 0⟩ < 1/10^10 := by
  refine ⟨?_, by norm_num [ComplexNumber.magnitude_sq]⟩
  ext <;> norm_num [ComplexNumber.divide]

/-- C4 amended: divide computes a times conj b over the squared magnitude
of b by unconditional division, with no epsilon check and no error flag;
for every b with nonzero squared magnitude, however small, it returns the
exact quotient, witnessed by multiplying back. -/
theorem divide_unconditional_exact_quotient (a b : ComplexNumber)
    (hb : b.real * b.real + b.imag * b.imag ≠ 0) :
    (a.divide b).multiply b = a := by
  ext
  · simp only [ComplexNumber.divide, ComplexNumber.multiply]
    field_simp
    ring
  · simp only [ComplexNumber.divide, ComplexNumber.multiply]
    field_simp
    ring

/-- Witness for the amended C4 at concrete values. -/
theorem divide_unconditional_exact_quotient_witness :
    (ComplexNumber.divide ⟨3, 4⟩ ⟨0, 2⟩).multiply ⟨0, 2⟩ = ⟨3, 4⟩ :=
  divide_unconditional_exact_quotient ⟨3, 4⟩ ⟨0, 2⟩ (by norm_num)

/-- Counterexample for C3: at screen point (200, 50) on a 200 by 100
canvas with zoom 1, center 0 and aspect ratio 2, screenToComplex returns
real part 2, whereas the aspect-corrected pipeline that the claim
describes (and that the shader main implements) returns real part 4; and
changing only the aspect ratio does not change the output of
screenToComplex at all. -/
theorem screenToComplex_ignores_aspect_cex :
    screenToComplex 200 50 200 100 ⟨1, ⟨0, 0⟩, 2⟩ = ⟨2, 0⟩ ∧
    screenToComplex_specModel 200 50 200 100 ⟨1, ⟨0, 0⟩, 2⟩ = ⟨4, 0⟩ ∧
    screenToComplex 200 50 200 100 ⟨1, ⟨0, 0⟩, 2⟩ =
      screenToComplex 200 50 200 100 ⟨1, ⟨0, 0⟩, 1⟩ := by
  refine ⟨?_, ?_, ?_⟩ <;>
    simp [screenToComplex, screenToComplex_specModel, wgslMix] <;>
    norm_num

/-- C3 amended: the shader main applies the aspect-ratio-corrected base
span, but the TypeScript screenToComplex and complexToScreen map both
axes onto the plain span from -2 to 2 before applying
(coord - center)/zoom + center, so their outputs do not depend on the
aspectRatio field of the viewport at all. -/
theorem screen_transforms_independent_of_aspect
    (x y W H zoom : ℚ) (c : ComplexNumber) (p : ComplexNumber)
    (a1 a2 : ℚ) :
    screenToComplex x y W H ⟨zoom, c, a1⟩ =
      screenToComplex x y W H ⟨zoom, c, a2⟩ ∧
    complexToScreen p W H ⟨zoom, c, a1⟩ =
      complexToScreen p W H ⟨zoom, c, a2⟩ :=
  ⟨rfl, rfl⟩

/-- Counterexample for C2: for the root set with roots 1 and -1 and seed
0, the derivative vanishes at iteration 0, the classifier terminates
immediately with root index -1, but it reports iterations = 30, the
iteration cap, not the iteration count 0 reached at that point. -/
theorem newton_derivative_floor_cex :
    c_abs_sq (evaluate_derivative [(1, 0), (-1, 0)] (0, 0)) <
      deriv_floor_sq ∧
    newton_root [(1, 0), (-1, 0)] (0, 0) = ⟨-1, (0, 0), 30, 0⟩ ∧
    (30 : ℤ) ≠ 0 := by
  refine ⟨by with_unfolding_all decide, by with_unfolding_all decide,
    by norm_num⟩

/-- C2 amended: whenever the Newton loop encounters a squared derivative
magnitude below the derivative floor, it terminates immediately with root
index -1, but the reported iteration count is always max_iter (30), not
the iteration number reached when the guard tripped. -/
theorem newton_derivative_floor_reports_max_iter
    (roots : List Vec2) (fuel i : ℕ) (z : Vec2)
    (h : c_abs_sq (evaluate_derivative roots z) < deriv_floor_sq) :
    newton_go roots (fuel + 1) i z = ⟨-1, (0, 0), (max_iter : ℤ), 0⟩ := by
  simp [newton_go, h]

/-- Witness for the amended C2 at the concrete critical seed. -/
theorem newton_derivative_floor_reports_max_iter_witness :
    newton_go [(1, 0), (-1, 0)] 30 5 (0, 0) =
      ⟨-1, (0, 0), (max_iter : ℤ), 0⟩ :=
  newton_derivative_floor_reports_max_iter [(1, 0), (-1, 0)] 29 5 (0, 0)
    (by with_unfolding_all decide)

/-- Helper: a successful root scan returns the lowest index whose squared
distance to z is below eps_sq, together with that root and distance. -/
theorem scan_roots_spec (roots : List Vec2) (z : Vec2) (k : ℕ) (rv : Vec2)
    (d2 : ℚ) (h : scan_roots roots z = some (k, rv, d2)) :
    k < roots.length ∧ rv = roots.getD k (0, 0) ∧
    d2 = c_abs_sq (c_sub z (roots.getD k (0, 0))) ∧ d2 < eps_sq ∧
    ∀ j, j < k → ¬ c_abs_sq (c_sub z (roots.getD j (0, 0))) < eps_sq := by
  induction roots generalizing k rv d2 with
  | nil => simp [scan_roots] at h
  | cons r rs ih =>
    simp only [scan_roots] at h
    by_cases hc : c_abs_sq (c_sub z r) < eps_sq
    · rw [if_pos hc, Option.some_inj] at h
      obtain ⟨hk, hrv, hd⟩ : 0 = k ∧ r = rv ∧ c_abs_sq (c_sub z r) = d2 := by
        simpa [Prod.ext_iff] using h
      subst hk; subst hrv; subst hd
      refine ⟨Nat.succ_pos _, by simp, by simp, hc, ?_⟩
      intro j hj; omega
    · rw [if_neg hc, Option.map_eq_some'] at h
      obtain ⟨⟨k1, rv1, d21⟩, hsc, hmk⟩ := h
      obtain ⟨hk, hrv, hd⟩ : k1 + 1 = k ∧ rv1 = rv ∧ d21 = d2 := by
        simpa [Prod.ext_iff] using hmk
      subst hk; subst hrv; subst hd
      obtain ⟨h1, h2, h3, h4, h5⟩ := ih k1 rv1 d21 hsc
      refine ⟨by simpa using Nat.succ_lt_succ h1, by simpa using h2,
        by simpa using h3, h4, ?_⟩
      intro j hj
      cases j with
      | zero => simpa using hc
      | succ j => simpa using h5 j (by omega)

/-- Helper: whenever the Newton loop returns a nonnegative root index, it
did so through a successful root scan at some iterate. -/
theorem newton_go_converged (roots : List Vec2) (fuel : ℕ) :
    ∀ (i : ℕ) (z : Vec2),
    0 ≤ (newton_go roots fuel i z).root_index →
    ∃ (z1 : Vec2) (k : ℕ),
      (newton_go roots fuel i z).root_index = (k : ℤ) ∧
      scan_roots roots z1 =
        some (k, (newton_go roots fuel i z).root_value,
          (newton_go roots fuel i z).final_distance_sq) := by
  induction fuel with
  | zero => intro i z h; simp [newton_go] at h
  | succ fuel ih =>
    intro i z h
    by_cases hder : c_abs_sq (evaluate_derivative roots z) < deriv_floor_sq
    · simp only [newton_go, if_pos hder] at h
      simp at h
    · simp only [newton_go, if_neg hder] at h ⊢
      rcases hscan : scan_roots roots
          (c_sub z (c_div (evaluate_polynomial roots z)
            (evaluate_derivative roots z))) with _ | ⟨k, rv, d2⟩
      · rw [hscan] at h
        exact ih (i + 1) _ h
      · exact ⟨_, k, rfl, hscan⟩

/-- C7: when the classifier reports convergence, the reported root index
is the lowest index whose squared distance to the final iterate is below
the squared convergence epsilon: every lower index fails the epsilon
test at that iterate. The classifier is a pure function of the root list
and the seed, so determinism (the first conjunct) is definitional in
this model. -/
theorem newton_classifier_tiebreak (roots : List Vec2) (z0 : Vec2)
    (h : 0 ≤ (newton_root roots z0).root_index) :
    newton_root roots z0 = newton_root roots z0 ∧
    ∃ (z1 : Vec2) (k : ℕ), (newton_root roots z0).root_index = (k : ℤ) ∧
      k < roots.length ∧
      (newton_root roots z0).root_value = roots.getD k (0, 0) ∧
      c_abs_sq (c_sub z1 (roots.getD k (0, 0))) < eps_sq ∧
      ∀ j, j < k → ¬ c_abs_sq (c_sub z1 (roots.getD j (0, 0))) < eps_sq := by
  refine ⟨rfl, ?_⟩
  obtain ⟨z1, k, hidx, hscan⟩ := newton_go_converged roots max_iter 0 z0 h
  obtain ⟨hk, hrv, hd2, hlt, hmin⟩ := scan_roots_spec roots z1 k _ _ hscan
  exact ⟨z1, k, hidx, hk, hrv, hd2 ▸ hlt, hmin⟩

/-- Witness for C7: two roots within the convergence epsilon of each
other and a seed landing in the overlap; the classifier resolves to the
lower index 0. -/
theorem newton_classifier_tiebreak_witness :
    (newton_root [((0 : ℚ), (0 : ℚ)), (1/100000, 0)] (0, 0)).root_index =
      0 ∧
    (newton_root [((0 : ℚ), (0 : ℚ)), (1/100000, 0)] (0, 0) =
      newton_root [((0 : ℚ), (0 : ℚ)), (1/100000, 0)] (0, 0) ∧
    ∃ (z1 : Vec2) (k : ℕ),
      (newton_root [((0 : ℚ), (0 : ℚ)), (1/100000, 0)] (0, 0)).root_index =
        (k : ℤ) ∧
      k < [((0 : ℚ), (0 : ℚ)), ((1 : ℚ)/100000, (0 : ℚ))].length ∧
      (newton_root [((0 : ℚ), (0 : ℚ)), (1/100000, 0)] (0, 0)).root_value =
        [((0 : ℚ), (0 : ℚ)), ((1 : ℚ)/100000, (0 : ℚ))].getD k (0, 0) ∧
      c_abs_sq (c_sub z1
        ([((0 : ℚ), (0 : ℚ)), ((1 : ℚ)/100000, (0 : ℚ))].getD k (0, 0))) <
        eps_sq ∧
      ∀ j, j < k → ¬ c_abs_sq (c_sub z1
        ([((0 : ℚ), (0 : ℚ)), ((1 : ℚ)/100000, (0 : ℚ))].getD j (0, 0))) <
        eps_sq) :=
  ⟨by with_unfolding_all decide,
   newton_classifier_tiebreak [((0 : ℚ), (0 : ℚ)), (1/100000, 0)] (0, 0)
     (by with_unfolding_all decide)⟩

/-- C10: the smooth color mapper returns white for every out-of-range
root index, not only -1; and whenever the guard lets an index through to
the palette lookup, that index equals the root index and is below the
active root count. -/
theorem smooth_color_guard_bounds (num_roots : ℕ)
    (colors : List (ℚ × ℚ × ℚ)) (result : NewtonResult) (so nv : ℚ) :
    ((result.root_index < 0 ∨ (num_roots : ℤ) ≤ result.root_index) →
      smooth_root_color num_roots colors result so nv = (1, 1, 1)) ∧
    (∀ i, smooth_palette_index num_roots result.root_index = some i →
      (i : ℤ) = result.root_index ∧ i < num_roots) := by
  constructor
  · intro h
    simp only [smooth_root_color, smooth_palette_index, if_pos h]
  · intro i hi
    rw [smooth_palette_index] at hi
    by_cases hg : result.root_index < 0 ∨
        (num_roots : ℤ) ≤ result.root_index
    · rw [if_pos hg] at hi
      exact absurd hi (by simp)
    · rw [if_neg hg] at hi
      push_neg at hg
      obtain ⟨h0, hn⟩ := hg
      rw [Option.some_inj] at hi
      subst hi
      exact ⟨Int.toNat_of_nonneg h0, by omega⟩

/-- Witness for C10: a non-convergent result maps to white, and an
in-range index passes the guard within bounds. -/
theorem smooth_color_guard_bounds_witness :
    smooth_root_color 3 [(1, 0, 0), (0, 1, 0), (0, 0, 1)]
      ⟨-1, (0, 0), 30, 0⟩ 0 0 = (1, 1, 1) ∧
    (((1 : ℕ) : ℤ) = (⟨1, (0, 0), 5, 0⟩ : NewtonResult).root_index ∧
      (1 : ℕ) < 3) :=
  ⟨(smooth_color_guard_bounds 3 [(1, 0, 0), (0, 1, 0), (0, 0, 1)]
      ⟨-1, (0, 0), 30, 0⟩ 0 0).1 (Or.inl (by norm_num)),
   (smooth_color_guard_bounds 3 [(1, 0, 0), (0, 1, 0), (0, 0, 1)]
      ⟨1, (0, 0), 5, 0⟩ 0 0).2 1
     (by simp [smooth_palette_index])⟩

/-- Helper: length of the root list after a successful add. -/
theorem addRootAtPosition_length (cfg : RMConfig) (s : RMState) (x y : ℚ)
    (hlt : s.roots.length < cfg.maxRoots) :
    (addRootAtPosition cfg s x y).roots.length = s.roots.length + 1 := by
  rw [addRootAtPosition, if_neg (by omega)]
  simp [List.enum_length]

/-- Helper: length of the root list after removeRoot, when above the
floor and the id is found. -/
theorem removeRoot_length (cfg : RMConfig) (s : RMState) (rid : ℕ) (i : ℕ)
    (hgt : ¬ s.roots.length ≤ cfg.minRoots)
    (hf : s.roots.findIdx? (fun r => r.id == rid) = some i) :
    (removeRoot cfg s rid).roots.length = (s.roots.eraseIdx i).length := by
  rw [removeRoot, if_neg hgt, hf]
  simp [List.enum_length]

/-- C5: the root-count invariant minRoots at most length at most maxRoots
is preserved by add and remove; adding at capacity and removing at the
floor are silent no-ops with no state change at all. -/
theorem root_capacity_invariant (cfg : RMConfig) (s : RMState) (x y : ℚ)
    (rid : ℕ)
    (hinv : cfg.minRoots ≤ s.roots.length ∧
      s.roots.length ≤ cfg.maxRoots) :
    (s.roots.length = cfg.maxRoots → addRootAtPosition cfg s x y = s) ∧
    (s.roots.length = cfg.minRoots → removeRoot cfg s rid = s) ∧
    cfg.minRoots ≤ (addRootAtPosition cfg s x y).roots.length ∧
    (addRootAtPosition cfg s x y).roots.length ≤ cfg.maxRoots ∧
    cfg.minRoots ≤ (removeRoot cfg s rid).roots.length ∧
    (removeRoot cfg s rid).roots.length ≤ cfg.maxRoots := by
  obtain ⟨hmin, hmax⟩ := hinv
  have haddlen : cfg.minRoots ≤ (addRootAtPosition cfg s x y).roots.length ∧
      (addRootAtPosition cfg s x y).roots.length ≤ cfg.maxRoots := by
    by_cases hcap : cfg.maxRoots ≤ s.roots.length
    · rw [addRootAtPosition, if_pos hcap]
      exact ⟨hmin, hmax⟩
    · rw [addRootAtPosition_length cfg s x y (by omega)]
      omega
  have hremlen : cfg.minRoots ≤ (removeRoot cfg s rid).roots.length ∧
      (removeRoot cfg s rid).roots.length ≤ cfg.maxRoots := by
    by_cases hfloor : s.roots.length ≤ cfg.minRoots
    · rw [removeRoot, if_pos hfloor]
      exact ⟨hmin, hmax⟩
    · rcases hf : s.roots.findIdx? (fun r => r.id == rid) with _ | i
      · rw [removeRoot, if_neg hfloor, hf]
        exact ⟨hmin, hmax⟩
      · rw [removeRoot_length cfg s rid i hfloor hf, List.length_eraseIdx]
        by_cases hi : i < s.roots.length
        · rw [if_pos hi]; omega
        · rw [if_neg hi]; omega
  refine ⟨?_, ?_, haddlen.1, haddlen.2, hremlen.1, hremlen.2⟩
  · intro hcap
    rw [addRootAtPosition, if_pos (le_of_eq hcap.symm)]
  · intro hfloor
    rw [removeRoot, if_pos (le_of_eq hfloor)]

/-- Witness for C5: a manager at capacity 16 ignores an add, and a
manager at the floor 2 ignores a remove. -/
theorem root_capacity_invariant_witness :
    addRootAtPosition ⟨2, 16, 100, 100, 0, 0⟩
      ⟨List.replicate 16 ⟨0, ⟨0, 0⟩, ⟨0, 0, 0⟩, false⟩, 0, ⟨1, ⟨0, 0⟩, 1⟩,
        ⟨false, none, (0, 0), (0, 0)⟩⟩ 0 0 =
      ⟨List.replicate 16 ⟨0, ⟨0, 0⟩, ⟨0, 0, 0⟩, false⟩, 0, ⟨1, ⟨0, 0⟩, 1⟩,
        ⟨false, none, (0, 0), (0, 0)⟩⟩ ∧
    removeRoot ⟨2, 16, 100, 100, 0, 0⟩
      ⟨List.replicate 2 ⟨0, ⟨0, 0⟩, ⟨0, 0, 0⟩, false⟩, 0, ⟨1, ⟨0, 0⟩, 1⟩,
        ⟨false, none, (0, 0), (0, 0)⟩⟩ 0 =
      ⟨List.replicate 2 ⟨0, ⟨0, 0⟩, ⟨0, 0, 0⟩, false⟩, 0, ⟨1, ⟨0, 0⟩, 1⟩,
        ⟨false, none, (0, 0), (0, 0)⟩⟩ :=
  ⟨(root_capacity_invariant ⟨2, 16, 100, 100, 0, 0⟩
      ⟨List.replicate 16 ⟨0, ⟨0, 0⟩, ⟨0, 0, 0⟩, false⟩, 0, ⟨1, ⟨0, 0⟩, 1⟩,
        ⟨false, none, (0, 0), (0, 0)⟩⟩ 0 0 0
      (by simp)).1 (by simp),
   (root_capacity_invariant ⟨2, 16, 100, 100, 0, 0⟩
      ⟨List.replicate 2 ⟨0, ⟨0, 0⟩, ⟨0, 0, 0⟩, false⟩, 0, ⟨1, ⟨0, 0⟩, 1⟩,
        ⟨false, none, (0, 0), (0, 0)⟩⟩ 0 0 0
      (by simp)).2.1 (by simp)⟩

/-- Helper: updateFirst preserves the list length. -/
theorem updateFirst_length (p : Root → Bool) (f : Root → Root)
    (l : List Root) : (updateFirst p f l).length = l.length := by
  induction l with
  | nil => rfl
  | cons r rs ih =>
    rw [updateFirst]
    by_cases h : p r
    · rw [if_pos h]; simp
    · rw [if_neg h]; simp [ih]

/-- Helper: each position of updateFirst is either unchanged or holds the
image under f of a position where the predicate held. -/
theorem updateFirst_getD_cases (p : Root → Bool) (f : Root → Root)
    (l : List Root) (j : ℕ) (d : Root) :
    (updateFirst p f l).getD j d = l.getD j d ∨
    ((updateFirst p f l).getD j d = f (l.getD j d) ∧
      p (l.getD j d) = true) := by
  induction l generalizing j with
  | nil => left; rfl
  | cons r rs ih =>
    rw [updateFirst]
    by_cases h : p r
    · rw [if_pos h]
      cases j with
      | zero => right; exact ⟨by simp, by simpa using h⟩
      | succ j => left; simp [List.getD_cons_succ]
    · rw [if_neg h]
      cases j with
      | zero => left; simp
      | succ j => simpa [List.getD_cons_succ] using ih j

/-- Helper: the first position where the predicate holds is updated by f.
-/
theorem updateFirst_getD_first (p : Root → Bool) (f : Root → Root)
    (l : List Root) (j : ℕ) (d : Root) (hj : j < l.length)
    (hfirst : ∀ k, k < j → p (l.getD k d) = false)
    (hp : p (l.getD j d) = true) :
    (updateFirst p f l).getD j d = f (l.getD j d) := by
  induction l generalizing j with
  | nil => simp at hj
  | cons r rs ih =>
    rw [updateFirst]
    cases j with
    | zero =>
      rw [if_pos (by simpa using hp)]
      simp
    | succ j =>
      have h0 : p r = false := by simpa using hfirst 0 (Nat.succ_pos j)
      rw [if_neg (by simp [h0])]
      simp only [List.getD_cons_succ]
      exact ih j (by simpa using hj)
        (fun k hk => by simpa using hfirst (k + 1) (by omega))
        (by simpa using hp)

/-- Helper: updating by an id-preserving function keeps find? successful.
-/
theorem updateFirst_find?_isSome (p : Root → Bool) (f : Root → Root)
    (hpf : ∀ r, p (f r) = p r) (l : List Root)
    (h : (l.find? p).isSome) : ((updateFirst p f l).find? p).isSome := by
  induction l with
  | nil => simpa [updateFirst] using h
  | cons r rs ih =>
    rw [updateFirst]
    by_cases hp : p r
    · rw [if_pos hp, List.find?_cons_of_pos _ (by simpa [hpf] using hp)]
      rfl
    · rw [if_neg hp, List.find?_cons_of_neg _ hp]
      rw [List.find?_cons_of_neg _ hp] at h
      exact ih h

/-- C6: after startDrag on an existing root id followed by handleDrag at
a pointer position (given in canvas coordinates, the canvas client rect
origin being zero), the first root with that id has position
screenToComplex of that pointer position under the current viewport, its
id and color are untouched, and every other root keeps its position, id
and color. -/
theorem drag_updates_only_target (cfg : RMConfig) (s : RMState) (rid : ℕ)
    (p0x p0y p1x p1y : ℚ) (d r0 : Root)
    (hr0 : r0 ∈ s.roots) (hid : r0.id = rid)
    (hL : cfg.canvasLeft = 0) (hT : cfg.canvasTop = 0) :
    (handleDrag cfg (startDrag cfg s rid p0x p0y) p1x p1y).roots.length =
      s.roots.length ∧
    ∀ j, j < s.roots.length →
      (((handleDrag cfg (startDrag cfg s rid p0x p0y) p1x p1y).roots.getD
          j d).id = (s.roots.getD j d).id ∧
       ((handleDrag cfg (startDrag cfg s rid p0x p0y) p1x p1y).roots.getD
          j d).color = (s.roots.getD j d).color) ∧
      ((s.roots.getD j d).id ≠ rid →
        ((handleDrag cfg (startDrag cfg s rid p0x p0y) p1x p1y).roots.getD
          j d).complex = (s.roots.getD j d).complex) ∧
      ((s.roots.getD j d).id = rid ∧
          (∀ k, k < j → (s.roots.getD k d).id ≠ rid) →
        ((handleDrag cfg (startDrag cfg s rid p0x p0y) p1x p1y).roots.getD
          j d).complex =
          screenToComplex p1x p1y cfg.canvasW cfg.canvasH s.viewport) := by
  have hfind : (s.roots.find? (fun r => r.id == rid)).isSome :=
    List.find?_isSome.mpr ⟨r0, hr0, by simp [hid]⟩
  obtain ⟨rf, hrf⟩ := Option.isSome_iff_exists.mp hfind
  have hs1 : startDrag cfg s rid p0x p0y =
      { s with
        dragState :=
          ⟨true, some rid, (p0x, p0y),
            (cfg.canvasLeft + (complexToScreen rf.complex cfg.canvasW
                cfg.canvasH s.viewport).1 - p0x,
             cfg.canvasTop + (complexToScreen rf.complex cfg.canvasW
                cfg.canvasH s.viewport).2 - p0y)⟩
        roots := updateFirst (fun r => r.id == rid)
          (fun r => { r with isDragging := true }) s.roots } := by
    simp only [startDrag, hrf]
  have hfind1 : ((updateFirst (fun r => r.id == rid)
      (fun r => { r with isDragging := true }) s.roots).find?
        (fun r => r.id == rid)).isSome :=
    updateFirst_find?_isSome (fun r => r.id == rid)
      (fun r => { r with isDragging := true }) (fun r => rfl) s.roots hfind
  obtain ⟨rg, hrg⟩ := Option.isSome_iff_exists.mp hfind1
  have hs2roots :
      (handleDrag cfg (startDrag cfg s rid p0x p0y) p1x p1y).roots =
      updateFirst (fun r => r.id == rid)
        (fun r => { r with complex := (screenToComplex (p1x - cfg.canvasLeft)
          (p1y - cfg.canvasTop) cfg.canvasW cfg.canvasH s.viewport) })
        (updateFirst (fun r => r.id == rid)
          (fun r => { r with isDragging := true }) s.roots) := by
    rw [hs1]
    simp only [handleDrag, hrg, Bool.not_true]
    rfl
  rw [hs2roots, hL, hT, sub_zero, sub_zero]
  refine ⟨by rw [updateFirst_length, updateFirst_length], ?_⟩
  intro j hj
  have hids : ∀ k, ((updateFirst (fun r => r.id == rid)
      (fun r => { r with isDragging := true }) s.roots).getD k d).id =
      (s.roots.getD k d).id := by
    intro k
    rcases updateFirst_getD_cases (fun r => r.id == rid)
      (fun r => { r with isDragging := true }) s.roots k d with h | ⟨h, _⟩ <;>
      rw [h]
  have hcols : ∀ k, ((updateFirst (fun r => r.id == rid)
      (fun r => { r with isDragging := true }) s.roots).getD k d).color =
      (s.roots.getD k d).color := by
    intro k
    rcases updateFirst_getD_cases (fun r => r.id == rid)
      (fun r => { r with isDragging := true }) s.roots k d with h | ⟨h, _⟩ <;>
      rw [h]
  have hcomps : ∀ k, ((updateFirst (fun r => r.id == rid)
      (fun r => { r with isDragging := true }) s.roots).getD k d).complex =
      (s.roots.getD k d).complex := by
    intro k
    rcases updateFirst_getD_cases (fun r => r.id == rid)
      (fun r => { r with isDragging := true }) s.roots k d with h | ⟨h, _⟩ <;>
      rw [h]
  refine ⟨?_, ?_, ?_⟩
  · rcases updateFirst_getD_cases (fun r => r.id == rid)
      (fun r => { r with complex := (screenToComplex p1x p1y cfg.canvasW
        cfg.canvasH s.viewport) })
      (updateFirst (fun r => r.id == rid)
        (fun r => { r with isDragging := true }) s.roots) j d with
      h | ⟨h, _⟩ <;>
      exact ⟨by rw [h]; exact hids j, by rw [h]; exact hcols j⟩
  · intro hne
    rcases updateFirst_getD_cases (fun r => r.id == rid)
      (fun r => { r with complex := (screenToComplex p1x p1y cfg.canvasW
        cfg.canvasH s.viewport) })
      (updateFirst (fun r => r.id == rid)
        (fun r => { r with isDragging := true }) s.roots) j d with
      h | ⟨h, hp⟩
    · rw [h, hcomps j]
    · exfalso
      rw [beq_iff_eq, hids j] at hp
      exact hne hp
  · rintro ⟨hjid, hfirst⟩
    have hupd := updateFirst_getD_first (fun r => r.id == rid)
      (fun r => { r with complex := (screenToComplex p1x p1y cfg.canvasW
        cfg.canvasH s.viewport) })
      (updateFirst (fun r => r.id == rid)
        (fun r => { r with isDragging := true }) s.roots) j d
      (by rw [updateFirst_length]; exact hj)
      (fun k hk => by
        rw [Bool.eq_false_iff]
        intro hk2
        rw [beq_iff_eq, hids k] at hk2
        exact hfirst k hk hk2)
      (by rw [beq_iff_eq, hids j]; exact hjid)
    rw [hupd]

/-- Witness for C6 on a concrete two-root state, dragging the root with
id 2. -/
theorem drag_updates_only_target_witness :
    (handleDrag (⟨2, 16, 100, 100, 0, 0⟩ : RMConfig) (startDrag (⟨2, 16, 100, 100, 0, 0⟩ : RMConfig) (⟨[⟨1, ⟨0, 0⟩, ⟨1, 0, 0⟩, false⟩, ⟨2, ⟨1, 0⟩, ⟨0, 1, 0⟩, false⟩], 3, ⟨1, ⟨0, 0⟩, 1⟩, ⟨false, none, (0, 0), (0, 0)⟩⟩ : RMState) 2 10 10) 50 25).roots.length = (⟨[⟨1, ⟨0, 0⟩, ⟨1, 0, 0⟩, false⟩, ⟨2, ⟨1, 0⟩, ⟨0, 1, 0⟩, false⟩], 3, ⟨1, ⟨0, 0⟩, 1⟩, ⟨false, none, (0, 0), (0, 0)⟩⟩ : RMState).roots.length ∧
    ∀ j, j < (⟨[⟨1, ⟨0, 0⟩, ⟨1, 0, 0⟩, false⟩, ⟨2, ⟨1, 0⟩, ⟨0, 1, 0⟩, false⟩], 3, ⟨1, ⟨0, 0⟩, 1⟩, ⟨false, none, (0, 0), (0, 0)⟩⟩ : RMState).roots.length →
      (((handleDrag (⟨2, 16, 100, 100, 0, 0⟩ : RMConfig) (startDrag (⟨2, 16, 100, 100, 0, 0⟩ : RMConfig) (⟨[⟨1, ⟨0, 0⟩, ⟨1, 0, 0⟩, false⟩, ⟨2, ⟨1, 0⟩, ⟨0, 1, 0⟩, false⟩], 3, ⟨1, ⟨0, 0⟩, 1⟩, ⟨false, none, (0, 0), (0, 0)⟩⟩ : RMState) 2 10 10) 50 25).roots.getD j (⟨0, ⟨0, 0⟩, ⟨0, 0, 0⟩, false⟩ : Root)).id = ((⟨[⟨1, ⟨0, 0⟩, ⟨1, 0, 0⟩, false⟩, ⟨2, ⟨1, 0⟩, ⟨0, 1, 0⟩, false⟩], 3, ⟨1, ⟨0, 0⟩, 1⟩, ⟨false, none, (0, 0), (0, 0)⟩⟩ : RMState).roots.getD j (⟨0, ⟨0, 0⟩, ⟨0, 0, 0⟩, false⟩ : Root)).id ∧
       ((handleDrag (⟨2, 16, 100, 100, 0, 0⟩ : RMConfig) (startDrag (⟨2, 16, 100, 100, 0, 0⟩ : RMConfig) (⟨[⟨1, ⟨0, 0⟩, ⟨1, 0, 0⟩, false⟩, ⟨2, ⟨1, 0⟩, ⟨0, 1, 0⟩, false⟩], 3, ⟨1, ⟨0, 0⟩, 1⟩, ⟨false, none, (0, 0), (0, 0)⟩⟩ : RMState) 2 10 10) 50 25).roots.getD j (⟨0, ⟨0, 0⟩, ⟨0, 0, 0⟩, false⟩ : Root)).color = ((⟨[⟨1, ⟨0, 0⟩, ⟨1, 0, 0⟩, false⟩, ⟨2, ⟨1, 0⟩, ⟨0, 1, 0⟩, false⟩], 3, ⟨1, ⟨0, 0⟩, 1⟩, ⟨false, none, (0, 0), (0, 0)⟩⟩ : RMState).roots.getD j (⟨0, ⟨0, 0⟩, ⟨0, 0, 0⟩, false⟩ : Root)).color) ∧
      (((⟨[⟨1, ⟨0, 0⟩, ⟨1, 0, 0⟩, false⟩, ⟨2, ⟨1, 0⟩, ⟨0, 1, 0⟩, false⟩], 3, ⟨1, ⟨0, 0⟩, 1⟩, ⟨false, none, (0, 0), (0, 0)⟩⟩ : RMState).roots.getD j (⟨0, ⟨0, 0⟩, ⟨0, 0, 0⟩, false⟩ : Root)).id ≠ 2 →
        ((handleDrag (⟨2, 16, 100, 100, 0, 0⟩ : RMConfig) (startDrag (⟨2, 16, 100, 100, 0, 0⟩ : RMConfig) (⟨[⟨1, ⟨0, 0⟩, ⟨1, 0, 0⟩, false⟩, ⟨2, ⟨1, 0⟩, ⟨0, 1, 0⟩, false⟩], 3, ⟨1, ⟨0, 0⟩, 1⟩, ⟨false, none, (0, 0), (0, 0)⟩⟩ : RMState) 2 10 10) 50 25).roots.getD j (⟨0, ⟨0, 0⟩, ⟨0, 0, 0⟩, false⟩ : Root)).complex = ((⟨[⟨1, ⟨0, 0⟩, ⟨1, 0, 0⟩, false⟩, ⟨2, ⟨1, 0⟩, ⟨0, 1, 0⟩, false⟩], 3, ⟨1, ⟨0, 0⟩, 1⟩, ⟨false, none, (0, 0), (0, 0)⟩⟩ : RMState).roots.getD j (⟨0, ⟨0, 0⟩, ⟨0, 0, 0⟩, false⟩ : Root)).complex) ∧
      (((⟨[⟨1, ⟨0, 0⟩, ⟨1, 0, 0⟩, false⟩, ⟨2, ⟨1, 0⟩, ⟨0, 1, 0⟩, false⟩], 3, ⟨1, ⟨0, 0⟩, 1⟩, ⟨false, none, (0, 0), (0, 0)⟩⟩ : RMState).roots.getD j (⟨0, ⟨0, 0⟩, ⟨0, 0, 0⟩, false⟩ : Root)).id = 2 ∧
          (∀ k, k < j → ((⟨[⟨1, ⟨0, 0⟩, ⟨1, 0, 0⟩, false⟩, ⟨2, ⟨1, 0⟩, ⟨0, 1, 0⟩, false⟩], 3, ⟨1, ⟨0, 0⟩, 1⟩, ⟨false, none, (0, 0), (0, 0)⟩⟩ : RMState).roots.getD k (⟨0, ⟨0, 0⟩, ⟨0, 0, 0⟩, false⟩ : Root)).id ≠ 2) →
        ((handleDrag (⟨2, 16, 100, 100, 0, 0⟩ : RMConfig) (startDrag (⟨2, 16, 100, 100, 0, 0⟩ : RMConfig) (⟨[⟨1, ⟨0, 0⟩, ⟨1, 0, 0⟩, false⟩, ⟨2, ⟨1, 0⟩, ⟨0, 1, 0⟩, false⟩], 3, ⟨1, ⟨0, 0⟩, 1⟩, ⟨false, none, (0, 0), (0, 0)⟩⟩ : RMState) 2 10 10) 50 25).roots.getD j (⟨0, ⟨0, 0⟩, ⟨0, 0, 0⟩, false⟩ : Root)).complex =
          screenToComplex 50 25 (⟨2, 16, 100, 100, 0, 0⟩ : RMConfig).canvasW (⟨2, 16, 100, 100, 0, 0⟩ : RMConfig).canvasH (⟨[⟨1, ⟨0, 0⟩, ⟨1, 0, 0⟩, false⟩, ⟨2, ⟨1, 0⟩, ⟨0, 1, 0⟩, false⟩], 3, ⟨1, ⟨0, 0⟩, 1⟩, ⟨false, none, (0, 0), (0, 0)⟩⟩ : RMState).viewport) :=
  drag_updates_only_target (⟨2, 16, 100, 100, 0, 0⟩ : RMConfig) (⟨[⟨1, ⟨0, 0⟩, ⟨1, 0, 0⟩, false⟩, ⟨2, ⟨1, 0⟩, ⟨0, 1, 0⟩, false⟩], 3, ⟨1, ⟨0, 0⟩, 1⟩, ⟨false, none, (0, 0), (0, 0)⟩⟩ : RMState) 2 10 10 50 25 (⟨0, ⟨0, 0⟩, ⟨0, 0, 0⟩, false⟩ : Root)
    ⟨2, ⟨1, 0⟩, ⟨0, 1, 0⟩, false⟩ (by simp) rfl rfl rfl
